import Mathlib

/-!
Shallow embedding of `main.py` of the alt-text bulk updater
(`alternative-text-update-bemol-seo`), covering the pieces the claims are
about: name normalization and alt-text generation, the checkpoint manager,
the per-item processor (`process_single_sku` / `process_sku_images` /
`update_image_alt`), the 429-retry logic of `safe_request`, and input-list
compaction (`remove_processed_skus_from_file`).

Python strings are modelled as Lean `String` (a wrapped `List Char`);
Python `str` methods used by the code are modelled as explicit char-list
functions (`pySplitL`, `pyLower`, `pyStrip`, ...).  JSON image records are
modelled as association lists of string keys and `JVal` values, matching
Python dict semantics (`get`, copy-and-assign).  The remote service is an
oracle (`Remote`) giving, per item, the product name `get_sku_details`
would return, the image-list response, and the status each PUT would get.
Network effects are made observable as a trace of `NetCall`s.  The thread
pool is modelled as a sequential fold over the input list.
-/

namespace AltText

/-- Whitespace test used by Python `str.split()` / `str.strip()`. -/
def isWs (c : Char) : Bool := c.isWhitespace

/-- Python `str.lower()` : character-wise lowercasing. -/
def pyLower (l : List Char) : List Char := l.map Char.toLower

/-- Accumulator worker for `pySplitL`: splits at whitespace runs, dropping
empty tokens, as Python `str.split()` with no argument does. -/
def pySplitAux : List Char → List Char → List (List Char)
  | [], acc => if acc = [] then [] else [acc.reverse]
  | c :: cs, acc =>
    if isWs c then
      if acc = [] then pySplitAux cs [] else acc.reverse :: pySplitAux cs []
    else pySplitAux cs (c :: acc)

/-- Python `name.split()`: tokenize on whitespace runs, no empty tokens. -/
def pySplitL (l : List Char) : List (List Char) := pySplitAux l []

/-- Python `" ".join(tokens)`. -/
def pyJoin : List (List Char) → List Char
  | [] => []
  | [t] => t
  | t :: ts => t ++ ' ' :: pyJoin ts

/-- Python `s.replace("  ", " ")`: left-to-right, non-overlapping. -/
def pyReplace2Sp : List Char → List Char
  | ' ' :: ' ' :: rest => ' ' :: pyReplace2Sp rest
  | c :: rest => c :: pyReplace2Sp rest
  | [] => []

/-- Python `s.strip()`: drop leading and trailing whitespace. -/
def pyStrip (l : List Char) : List Char :=
  ((l.dropWhile isWs).reverse.dropWhile isWs).reverse

/-- Python `s.strip()` on `String`s. -/
def pyStripS (s : String) : String := ⟨pyStrip s.data⟩

/-- `normalize_product_name` (main.py:79-90):
`if not name: return ""`, then `" ".join(name.split()).lower()`,
then `.replace("  ", " ").strip()`. -/
def normalize_product_name (name : String) : String :=
  if name = "" then ""
  else ⟨pyStrip (pyReplace2Sp (pyLower (pyJoin (pySplitL name.data))))⟩

/-- `generate_natural_alt_text` (main.py:92-102): returns the normalized
product name, or the generic placeholder when normalization is empty.
The `image_index` and `total_images` parameters are accepted but unused,
as in the source. -/
def generate_natural_alt_text (product_name : String)
    (image_index : Nat) (total_images : Nat) : String :=
  let normalized_name := normalize_product_name product_name
  if normalized_name = "" then "produto farmacêutico"
  else normalized_name

/-! ### JSON values and image records (Python dicts) -/

/-- A JSON scalar value, enough to model the image record payloads the
code reads (`Id`, `Label`) and writes (`Label`, `Text`), plus arbitrary
other fields that must round-trip. -/
inductive JVal where
  | str (s : String)
  | num (n : Int)
  | bool (b : Bool)
  | null
  deriving DecidableEq, Repr

/-- An image record: the Python dict for one image, as an association
list in insertion order (Python dicts preserve insertion order and have
unique keys; lookup and assignment below mirror `d.get(k)` / `d[k] = v`). -/
abbrev ImageRec := List (String × JVal)

/-- Python `d.get(key)`: first binding of `key`, if any. -/
def dictGet : ImageRec → String → Option JVal
  | [], _ => none
  | (k, v) :: rest, key => if k = key then some v else dictGet rest key

/-- Python `d[key] = v`: replace the binding in place if the key exists,
otherwise append the new binding. -/
def dictSet : ImageRec → String → JVal → ImageRec
  | [], key, v => [(key, v)]
  | (k, w) :: rest, key, v =>
    if k = key then (k, v) :: rest else (k, w) :: dictSet rest key v

/-- The PUT payload built by `update_image_alt` (main.py:231-233):
`payload = original_image_data.copy(); payload["Label"] = new_alt_text;
payload["Text"] = new_alt_text`. -/
def build_update_payload (original_image_data : ImageRec)
    (new_alt_text : String) : ImageRec :=
  dictSet (dictSet original_image_data "Label" (.str new_alt_text))
    "Text" (.str new_alt_text)

/-- `img.get('Label', '')` seen as a string: the current label, with an
absent, null or non-string label read as `""` (such a label is falsy in
the `all_have_alt` check and differs from the never-empty target text in
the update loop, so this collapse preserves the branching of the code). -/
def labelStr (img : ImageRec) : String :=
  match dictGet img "Label" with
  | some (.str s) => s
  | _ => ""

/-- `img.get('Label') and img.get('Label').strip()` as a Boolean: the
image already carries a non-blank label. -/
def hasAlt (img : ImageRec) : Bool :=
  labelStr img ≠ "" && pyStripS (labelStr img) ≠ ""

/-- `all(img.get('Label') and img.get('Label').strip() for img in images)`
(main.py:266-269). -/
def allHaveAlt (images : List ImageRec) : Bool := images.all hasAlt

/-- `img.get('Id')`, the file id interpolated into the PUT URL. -/
def fileIdOf (img : ImageRec) : Option JVal := dictGet img "Id"

/-! ### The remote service as an oracle, and observable network calls -/

/-- Everything the remote answers during a run, per item: the product
name `get_sku_details` would extract (``none`` when the details fetch
fails or yields no name — both make `process_single_sku` take its
no-details branch), the response to the image-list GET (``none`` = no
response, otherwise status code and decoded body), and the status each
per-image PUT would receive (``none`` = no response). -/
structure Remote where
  details : Int → Option String
  imagesResp : Int → Option (Nat × List ImageRec)
  updateStatus : Int → Option JVal → Option Nat

/-- One observable network call of the engine. -/
inductive NetCall where
  | getDetails (sku : Int)
  | getImages (sku : Int)
  | putImage (sku : Int) (fileId : Option JVal) (payload : ImageRec)
  deriving DecidableEq, Repr

/-- Is this call a PUT (an image update)? -/
def NetCall.isPut : NetCall → Bool
  | .putImage _ _ _ => true
  | _ => false

/-! ### Checkpoint manager -/

/-- The in-memory checkpoint state: the `processed_skus` list. -/
abbrev Checkpoint := List Int

/-- `CheckpointManager.mark_processed` (main.py:131-134): append the id
unless it is already present. -/
def mark_processed (cp : Checkpoint) (sku_id : Int) : Checkpoint :=
  if sku_id ∈ cp then cp else cp ++ [sku_id]

/-- `CheckpointManager.is_processed` (main.py:136-138). -/
def is_processed (cp : Checkpoint) (sku_id : Int) : Bool := sku_id ∈ cp

/-! ### Per-item processing -/

/-- `update_image_alt` (main.py:226-246): build the read-modify-write
payload, PUT it, and succeed exactly on a 200 response (a 401 and every
other non-200 status, as well as no response, return `False`).  Returns
the success flag together with the PUT call issued. -/
def update_image_alt (remote : Remote) (sku_id : Int)
    (original_image_data : ImageRec) (new_alt_text : String) :
    Bool × NetCall :=
  let file_id := fileIdOf original_image_data
  let payload := build_update_payload original_image_data new_alt_text
  (remote.updateStatus sku_id file_id == some 200,
   .putImage sku_id file_id payload)

/-- The `for index, img in enumerate(images, start=1)` loop of
`process_sku_images` (main.py:280-288): update every image whose current
label differs from the freshly generated alt text, skip the rest, and
report success only if no attempted update failed. -/
def updateImagesLoop (remote : Remote) (sku_id : Int)
    (product_name : String) (total_images : Nat) :
    Nat → List ImageRec → Bool × List NetCall
  | _, [] => (true, [])
  | index, img :: rest =>
    let current_label := labelStr img
    let new_alt := generate_natural_alt_text product_name index total_images
    let r :=
      updateImagesLoop remote sku_id product_name total_images (index + 1) rest
    if current_label ≠ new_alt then
      let u := update_image_alt remote sku_id img new_alt
      (u.1 && r.1, u.2 :: r.2)
    else
      (r.1, r.2)

/-- `process_sku_images` (main.py:248-302): fetch the image list; no
response ⇒ failure; 200 with empty list ⇒ processed; 200 with every image
already labeled ⇒ processed (fast path); otherwise run the update loop
and checkpoint only on full success; 404 ⇒ processed; any other status ⇒
failure.  Returns (success, checkpoint, network calls issued). -/
def process_sku_images (remote : Remote) (sku_id : Int)
    (product_name : String) (cp : Checkpoint) :
    Bool × Checkpoint × List NetCall :=
  let fetch := NetCall.getImages sku_id
  match remote.imagesResp sku_id with
  | none => (false, cp, [fetch])
  | some (status, images) =>
    if status = 200 then
      if images = [] then (true, mark_processed cp sku_id, [fetch])
      else if allHaveAlt images then (true, mark_processed cp sku_id, [fetch])
      else
        let total_images := images.length
        let r := updateImagesLoop remote sku_id product_name total_images 1 images
        (r.1, if r.1 then mark_processed cp sku_id else cp, fetch :: r.2)
    else if status = 404 then (true, mark_processed cp sku_id, [fetch])
    else (false, cp, [fetch])

/-- `process_single_sku` (main.py:318-335): skip immediately when the id
is checkpointed (no network calls at all); otherwise fetch the details
(one GET); a falsy product name marks the id processed without touching
its images; otherwise delegate to `process_sku_images`. -/
def process_single_sku (remote : Remote) (cp : Checkpoint) (sku_id : Int) :
    Bool × Checkpoint × List NetCall :=
  if is_processed cp sku_id then (true, cp, [])
  else
    let product_name := (remote.details sku_id).getD ""
    if product_name = "" then
      (true, mark_processed cp sku_id, [.getDetails sku_id])
    else
      let r := process_sku_images remote sku_id product_name cp
      (r.1, r.2.1, .getDetails sku_id :: r.2.2)

/-- One pass of `run_bulk_update` over the input list (main.py:401-418),
with the worker pool modelled sequentially: fold `process_single_sku`
over the ids, accumulating the checkpoint and the network-call trace. -/
def runEngine (remote : Remote) (cp : Checkpoint) :
    List Int → Checkpoint × List NetCall
  | [] => (cp, [])
  | sku :: rest =>
    let r := process_single_sku remote cp sku
    let k := runEngine remote r.2.1 rest
    (k.1, r.2.2 ++ k.2)

/-! ### `safe_request` and the 429 retry recursion -/

/-- An HTTP response as `safe_request` sees it: a status code and the
optional `Retry-After` header (already parsed as seconds). -/
structure HttpResp where
  status : Nat
  retryAfter : Option Nat
  deriving DecidableEq, Repr

/-- `safe_request` (main.py:198-224), driven by the sequence of outcomes
the session produces for the successive attempts (``none`` = the request
raised, which `safe_request` turns into a `None` return without retrying).
On a 429 it reads `Retry-After` (defaulting to 60), sleeps that long and
re-issues the call.  Returns the final outcome, the number of re-issues
performed, and the total seconds slept; an exhausted attempt list (the
server kept answering 429 past the end) yields `none` with the re-issues
and sleep already accumulated. -/
def safe_request : List (Option HttpResp) → Option HttpResp × Nat × Nat
  | [] => (none, 0, 0)
  | attempt :: rest =>
    match attempt with
    | none => (none, 0, 0)
    | some response =>
      if response.status = 429 then
        let retry_after := response.retryAfter.getD 60
        let r := safe_request rest
        (r.1, r.2.1 + 1, r.2.2 + retry_after)
      else (some response, 0, 0)

/-! ### Input-list compaction -/

/-- One step of the line loop of `remove_processed_skus_from_file`
(main.py:352-367), threading `(remaining_lines, removed_count)`: keep
blank and comment lines, keep unparsable lines, drop exactly the ID lines
whose id is in the processed set. -/
def compactStep (processed : List Int) (st : List String × Nat)
    (line : String) : List String × Nat :=
  let stripped := pyStripS line
  if stripped = "" || stripped.startsWith "#" then (st.1 ++ [line], st.2)
  else
    match stripped.toInt? with
    | some sku_id =>
      if sku_id ∈ processed then (st.1, st.2 + 1) else (st.1 ++ [line], st.2)
    | none => (st.1 ++ [line], st.2)

/-- `remove_processed_skus_from_file` (main.py:337-377) on the file's
lines: rewrite (`some remaining`) only when at least one line was
removed, otherwise leave the file untouched (`none`). -/
def remove_processed_skus_from_file (processed : List Int)
    (lines : List String) : Option (List String) :=
  let (remaining, removed) := lines.foldl (compactStep processed) ([], 0)
  if removed > 0 then some remaining else none

/-- The keep-predicate `remove_processed_skus_from_file` implements per
line: blank or comment lines and unparsable lines are kept; an ID line is
kept iff its id is not in the processed set. -/
def keepLine (processed : List Int) (line : String) : Bool :=
  let stripped := pyStripS line
  if stripped = "" || stripped.startsWith "#" then true
  else
    match stripped.toInt? with
    | some sku_id => sku_id ∉ processed
    | none => true

/-- The list of image records the engine iterates over for an item: the
decoded body of a 200 image-list response; in every other case (no
response, 404, error status) the engine runs no per-image loop, which the
empty list reflects. -/
def imagesBody (remote : Remote) (sku_id : Int) : List ImageRec :=
  match remote.imagesResp sku_id with
  | some (200, images) => images
  | _ => []

/-- Fixture: a remote that never answers (used by witnesses that must not
depend on the remote). -/
def silentRemote : Remote :=
  ⟨fun _ => none, fun _ => none, fun _ _ => none⟩

/-- Fixture: every item has the name `"Abc"` and a single unlabeled
image; every PUT succeeds with 200. -/
def demoRemote : Remote :=
  ⟨fun _ => some "Abc",
   fun _ => some (200, [[("Id", JVal.num 1), ("Label", JVal.str "")]]),
   fun _ _ => some 200⟩

/-- Fixture: like `demoRemote`, but every PUT is answered 401 (expired
credentials). -/
def demo401Remote : Remote :=
  ⟨fun _ => some "Abc",
   fun _ => some (200, [[("Id", JVal.num 1), ("Label", JVal.str "")]]),
   fun _ _ => some 401⟩

/-- Fixture: the image-list fetch answers 404 for every item. -/
def demo404Remote : Remote :=
  ⟨fun _ => some "Abc", fun _ => some (404, []), fun _ _ => none⟩

/-! ## Helper lemmas -/

theorem dictGet_dictSet_self (d : ImageRec) (k : String) (v : JVal) :
    dictGet (dictSet d k v) k = some v := by
  induction d with
  | nil => simp [dictGet, dictSet]
  | cons kv rest ih =>
    obtain ⟨k1, v1⟩ := kv
    by_cases h : k1 = k
    · simp [dictGet, dictSet, h]
    · simp [dictGet, dictSet, h, ih]

theorem dictGet_dictSet_of_ne (d : ImageRec) (k : String) (v : JVal)
    (k2 : String) (h : k2 ≠ k) :
    dictGet (dictSet d k v) k2 = dictGet d k2 := by
  have h' : k ≠ k2 := Ne.symm h
  induction d with
  | nil => simp [dictGet, dictSet, h']
  | cons kv rest ih =>
    obtain ⟨k1, v1⟩ := kv
    by_cases h1 : k1 = k
    · subst h1
      simp [dictGet, dictSet, h']
    · simp only [dictSet, if_neg h1]
      by_cases h2 : k1 = k2
      · simp [dictGet, h2]
      · simp [dictGet, h2, ih]

theorem dictGet_build_payload_label (img : ImageRec) (t : String) :
    dictGet (build_update_payload img t) "Label" = some (JVal.str t) := by
  rw [build_update_payload, dictGet_dictSet_of_ne _ _ _ _ (by decide),
    dictGet_dictSet_self]

theorem dictGet_build_payload_text (img : ImageRec) (t : String) :
    dictGet (build_update_payload img t) "Text" = some (JVal.str t) := by
  rw [build_update_payload, dictGet_dictSet_self]

theorem dictGet_build_payload_other (img : ImageRec) (t : String)
    (k : String) (h1 : k ≠ "Label") (h2 : k ≠ "Text") :
    dictGet (build_update_payload img t) k = dictGet img k := by
  rw [build_update_payload, dictGet_dictSet_of_ne _ _ _ _ h2,
    dictGet_dictSet_of_ne _ _ _ _ h1]

/-- The unused position arguments of `generate_natural_alt_text` never
influence its value. -/
theorem generate_alt_index_irrelevant (product_name : String)
    (i t : Nat) :
    generate_natural_alt_text product_name i t =
      generate_natural_alt_text product_name 0 0 := rfl

theorem process_single_sku_of_mem (remote : Remote) (cp : Checkpoint)
    (sku_id : Int) (h : sku_id ∈ cp) :
    process_single_sku remote cp sku_id = (true, cp, []) := by
  simp [process_single_sku, is_processed, h]

/-- Every network call the per-image update loop issues is a PUT, for
this item, whose payload is the read-modify-write payload built from one
of the iterated image records and the (position-independent) generated
alt text. -/
theorem updateImagesLoop_calls_shape (remote : Remote) (sku_id : Int)
    (product_name : String) (total : Nat) :
    ∀ (l : List ImageRec) (index : Nat) (c : NetCall),
      c ∈ (updateImagesLoop remote sku_id product_name total index l).2 →
      ∃ img : ImageRec,
        c = NetCall.putImage sku_id (fileIdOf img)
          (build_update_payload img
            (generate_natural_alt_text product_name 0 0)) := by
  intro l
  induction l with
  | nil => intro idx c hc; simp [updateImagesLoop] at hc
  | cons img rest ih =>
    intro idx c hc
    by_cases hlab :
        labelStr img ≠ generate_natural_alt_text product_name idx total
    · simp only [updateImagesLoop, if_pos hlab, List.mem_cons] at hc
      rcases hc with h | h
      · refine ⟨img, ?_⟩
        rw [h]
        simp [update_image_alt, generate_alt_index_irrelevant]
      · exact ih _ _ h
    · simp only [updateImagesLoop, if_neg hlab] at hc
      exact ih _ _ hc

/-- The per-image update loop succeeds exactly when every image whose
current label differs from the (position-independent) target text got a
200 on its PUT. -/
theorem updateImagesLoop_success_iff (remote : Remote) (sku_id : Int)
    (product_name : String) (total : Nat) :
    ∀ (l : List ImageRec) (index : Nat),
      (updateImagesLoop remote sku_id product_name total index l).1 = true ↔
        ∀ img ∈ l,
          labelStr img ≠ generate_natural_alt_text product_name 0 0 →
          remote.updateStatus sku_id (fileIdOf img) = some 200 := by
  intro l
  induction l with
  | nil => intro idx; simp [updateImagesLoop]
  | cons img rest ih =>
    intro idx
    by_cases hlab :
        labelStr img ≠ generate_natural_alt_text product_name idx total
    · have hlab00 :
          labelStr img ≠ generate_natural_alt_text product_name 0 0 := hlab
      simp only [updateImagesLoop, if_pos hlab, update_image_alt,
        Bool.and_eq_true, beq_iff_eq, List.forall_mem_cons]
      rw [ih (idx + 1)]
      exact ⟨fun h => ⟨fun _ => h.1, h.2⟩, fun h => ⟨h.1 hlab00, h.2⟩⟩
    · have hlab00 :
          labelStr img = generate_natural_alt_text product_name 0 0 :=
        not_not.mp hlab
      simp only [updateImagesLoop, if_neg hlab, List.forall_mem_cons]
      rw [ih (idx + 1)]
      exact ⟨fun h => ⟨fun hne => absurd hlab00 hne, h⟩, fun h => h.2⟩

/-- One line step of the compaction loop, phrased through the keep
predicate: a kept line is appended to the remaining lines, a dropped line
bumps the removed counter. -/
theorem compactStep_eq (processed : List Int) (st : List String × Nat)
    (line : String) :
    compactStep processed st line =
      if keepLine processed line then (st.1 ++ [line], st.2)
      else (st.1, st.2 + 1) := by
  unfold compactStep keepLine
  by_cases h1 : (decide (pyStripS line = "") ||
      (pyStripS line).startsWith "#") = true
  · simp [h1]
  · simp only [h1, Bool.false_eq_true, if_false]
    cases h : (pyStripS line).toInt? with
    | none => simp
    | some sku_id =>
      by_cases hm : sku_id ∈ processed
      · simp [hm]
      · simp [hm]

/-- The compaction fold keeps exactly the lines satisfying the keep
predicate (in order, after the accumulator) and counts the dropped
lines. -/
theorem foldl_compactStep (processed : List Int) :
    ∀ (lines : List String) (acc : List String) (n : Nat),
      lines.foldl (compactStep processed) (acc, n) =
        (acc ++ lines.filter (keepLine processed),
         n + lines.countP (fun l => ! keepLine processed l)) := by
  intro lines
  induction lines with
  | nil => intro acc n; simp
  | cons line rest ih =>
    intro acc n
    rw [List.foldl_cons, compactStep_eq]
    by_cases hk : keepLine processed line
    · rw [if_pos hk, ih]
      simp [List.filter_cons, List.countP_cons, hk]
    · rw [if_neg hk, ih]
      have hk' : keepLine processed line = false := by
        simpa using hk
      simp [List.filter_cons, List.countP_cons, hk']
      omega

theorem subset_mark_processed (cp : Checkpoint) (sku_id : Int) :
    cp ⊆ mark_processed cp sku_id := by
  unfold mark_processed
  by_cases h : sku_id ∈ cp
  · simp [h]
  · simp only [h, if_false]
    exact List.subset_append_left cp [sku_id]

theorem subset_process_sku_images (remote : Remote) (sku_id : Int)
    (product_name : String) (cp : Checkpoint) :
    cp ⊆ (process_sku_images remote sku_id product_name cp).2.1 := by
  cases hresp : remote.imagesResp sku_id with
  | none => simp [process_sku_images, hresp]
  | some p =>
    obtain ⟨st, images⟩ := p
    by_cases h200 : st = 200
    · subst h200
      by_cases hemp : images = []
      · simp [process_sku_images, hresp, hemp, subset_mark_processed]
      · by_cases hall : allHaveAlt images
        · simp [process_sku_images, hresp, hemp, hall,
            subset_mark_processed]
        · simp only [process_sku_images, hresp]
          simp only [if_pos rfl, if_neg hemp, hall]
          by_cases hs : (updateImagesLoop remote sku_id product_name
              images.length 1 images).1
          · simp [hs, subset_mark_processed]
          · simp [hs]
    · by_cases h404 : st = 404
      · subst h404
        simp [process_sku_images, hresp, subset_mark_processed]
      · simp [process_sku_images, hresp, h200, h404]

theorem subset_process_single_sku (remote : Remote) (cp : Checkpoint)
    (sku_id : Int) :
    cp ⊆ (process_single_sku remote cp sku_id).2.1 := by
  by_cases hc : sku_id ∈ cp
  · rw [process_single_sku_of_mem remote cp sku_id hc]
    exact fun x hx => hx
  · unfold process_single_sku
    rw [if_neg (by simpa [is_processed] using hc)]
    by_cases hname : (remote.details sku_id).getD "" = ""
    · simp [hname, subset_mark_processed]
    · simp [hname, subset_process_sku_images]

theorem subset_runEngine (remote : Remote) :
    ∀ (skus : List Int) (cp : Checkpoint),
      cp ⊆ (runEngine remote cp skus).1 := by
  intro skus
  induction skus with
  | nil => intro cp; simp [runEngine]
  | cons sku rest ih =>
    intro cp
    simp only [runEngine]
    exact (subset_process_single_sku remote cp sku).trans
      (ih (process_single_sku remote cp sku).2.1)

/-- When every iterated image already carries the target text, the
update loop issues no call at all (per-image equality skip). -/
theorem updateImagesLoop_no_calls (remote : Remote) (sku_id : Int)
    (product_name : String) (total : Nat) :
    ∀ (l : List ImageRec) (index : Nat),
      (∀ img ∈ l,
        labelStr img = generate_natural_alt_text product_name 0 0) →
      (updateImagesLoop remote sku_id product_name total index l).2 = [] := by
  intro l
  induction l with
  | nil => intro idx _; rfl
  | cons img rest ih =>
    intro idx h
    have himg : labelStr img =
        generate_natural_alt_text product_name idx total :=
      h img (List.mem_cons_self img rest)
    have hrest := ih (idx + 1) fun i hi => h i (List.mem_cons_of_mem img hi)
    simp only [updateImagesLoop, if_neg (not_not_intro himg)]
    exact hrest

/-- When every image of the 200 body already carries the target text,
`process_sku_images` issues no PUT (either the fast path or the
per-image skip); in every non-200 case there is no PUT anyway. -/
theorem process_sku_images_no_puts (remote : Remote) (sku_id : Int)
    (product_name : String) (cp : Checkpoint)
    (h : ∀ img ∈ imagesBody remote sku_id,
      labelStr img = generate_natural_alt_text product_name 0 0) :
    ((process_sku_images remote sku_id product_name cp).2.2).filter
      NetCall.isPut = [] := by
  cases hresp : remote.imagesResp sku_id with
  | none => simp [process_sku_images, hresp, NetCall.isPut]
  | some p =>
    obtain ⟨st, images⟩ := p
    by_cases h200 : st = 200
    · subst h200
      by_cases hemp : images = []
      · simp [process_sku_images, hresp, hemp, NetCall.isPut]
      · by_cases hall : allHaveAlt images
        · simp [process_sku_images, hresp, hemp, hall, NetCall.isPut]
        · have hbody : imagesBody remote sku_id = images := by
            simp [imagesBody, hresp]
          have hcalls := updateImagesLoop_no_calls remote sku_id
            product_name images.length images 1 (hbody ▸ h)
          simp [process_sku_images, hresp, hemp, hall, hcalls,
            NetCall.isPut]
    · by_cases h404 : st = 404
      · subst h404
        simp [process_sku_images, hresp, NetCall.isPut]
      · simp [process_sku_images, hresp, h200, h404, NetCall.isPut]

/-- An item whose remote images all carry the target text generates no
PUT in `process_single_sku`, whatever the checkpoint. -/
theorem process_single_sku_no_puts (remote : Remote) (cp : Checkpoint)
    (sku_id : Int)
    (h : ∀ img ∈ imagesBody remote sku_id,
      labelStr img =
        generate_natural_alt_text ((remote.details sku_id).getD "") 0 0) :
    ((process_single_sku remote cp sku_id).2.2).filter NetCall.isPut
      = [] := by
  by_cases hc : sku_id ∈ cp
  · rw [process_single_sku_of_mem remote cp sku_id hc]
    rfl
  · unfold process_single_sku
    rw [if_neg (by simpa [is_processed] using hc)]
    by_cases hname : (remote.details sku_id).getD "" = ""
    · simp [hname, NetCall.isPut]
    · simp only [hname, if_false, List.filter_cons]
      simp [NetCall.isPut,
        process_sku_images_no_puts remote sku_id _ cp h]

theorem pyLower_append (a b : List Char) :
    pyLower (a ++ b) = pyLower a ++ pyLower b := by
  simp [pyLower]

theorem pyLower_cons (c : Char) (l : List Char) :
    pyLower (c :: l) = Char.toLower c :: pyLower l := rfl

/-- Lowercasing commutes with joining on a single space. -/
theorem pyLower_pyJoin : ∀ ts : List (List Char),
    pyLower (pyJoin ts) = pyJoin (ts.map pyLower) := by
  intro ts
  induction ts with
  | nil => rfl
  | cons t rest ih =>
    cases rest with
    | nil => rfl
    | cons t2 rest2 =>
      simp only [pyJoin, List.map_cons]
      rw [pyLower_append, pyLower_cons, ih]
      rfl

/-- `normalize_product_name` is a function of the lowercased whitespace
tokens of its input. -/
theorem normalize_eq_core (s : String) :
    normalize_product_name s =
      ⟨pyStrip (pyReplace2Sp (pyJoin ((pySplitL s.data).map pyLower)))⟩ := by
  by_cases h : s = ""
  · subst h
    rfl
  · rw [normalize_product_name, if_neg h, pyLower_pyJoin]

/-! ## Claim theorems -/

/-- Claim C1 (refuted part shown as stated facts about the code): on a
429 response `safe_request` reads `Retry-After` (defaulting to 60),
sleeps that long and re-issues the call — but the re-issuing is NOT
bounded by any fixed depth: a run of N consecutive 429 responses causes
exactly N re-issues, so no finite bound covers every 429 sequence. -/
theorem safe_request_reissues_unbounded :
    (∀ (h : Option Nat) (rest : List (Option HttpResp)),
      safe_request (some ⟨429, h⟩ :: rest) =
        ((safe_request rest).1, (safe_request rest).2.1 + 1,
          (safe_request rest).2.2 + h.getD 60)) ∧
    (∀ N : Nat,
      (safe_request (List.replicate (N + 1) (some ⟨429, none⟩))).2.1
        = N + 1) ∧
    ¬ ∃ B : Nat, ∀ attempts : List (Option HttpResp),
        (safe_request attempts).2.1 ≤ B := by
  have hstep : ∀ (h : Option Nat) (rest : List (Option HttpResp)),
      safe_request (some ⟨429, h⟩ :: rest) =
        ((safe_request rest).1, (safe_request rest).2.1 + 1,
          (safe_request rest).2.2 + h.getD 60) := by
    intro h rest
    simp [safe_request]
  have hrep : ∀ N : Nat,
      (safe_request (List.replicate (N + 1) (some ⟨429, none⟩))).2.1
        = N + 1 := by
    intro N
    induction N with
    | zero => simp [safe_request]
    | succ n ih =>
      rw [List.replicate_succ, hstep]
      simp [ih]
  refine ⟨hstep, hrep, ?_⟩
  rintro ⟨B, hB⟩
  have h1 := hB (List.replicate (B + 1) (some ⟨429, none⟩))
  rw [hrep B] at h1
  omega

/-- Witness for C1: one 429 with `Retry-After: 5` and nothing after it —
one re-issue, five seconds slept, no final response. -/
theorem safe_request_reissues_unbounded_witness :
    safe_request [some ⟨429, some 5⟩] = (none, 1, 5) :=
  (safe_request_reissues_unbounded.1 (some 5) []).trans rfl

/-- Claim C3: marking an already-present id is a no-op on the checkpoint
state, and any sequence of markings starting from the empty checkpoint
yields a duplicate-free `processed_skus` list. -/
theorem mark_processed_idempotent_and_nodup :
    (∀ (cp : Checkpoint) (sku_id : Int), sku_id ∈ cp →
      mark_processed cp sku_id = cp) ∧
    (∀ ops : List Int, (ops.foldl mark_processed []).Nodup) := by
  constructor
  · intro cp sku h
    simp [mark_processed, h]
  · intro ops
    have key : ∀ (l : List Int) (cp : Checkpoint), cp.Nodup →
        (l.foldl mark_processed cp).Nodup := by
      intro l
      induction l with
      | nil => intro cp h; simpa using h
      | cons a rest ih =>
        intro cp h
        refine ih _ ?_
        by_cases hm : a ∈ cp
        · simpa [mark_processed, hm] using h
        · have he : mark_processed cp a = cp ++ [a] := by
            simp [mark_processed, hm]
          rw [he]
          refine List.Nodup.append h (List.nodup_singleton a) ?_
          intro b hb hba
          rw [List.mem_singleton] at hba
          exact hm (hba ▸ hb)
    exact key ops [] (by simp)

/-- Witness for C3 at a concrete checkpoint. -/
theorem mark_processed_idempotent_and_nodup_witness :
    mark_processed [3, 4] 4 = [3, 4] :=
  mark_processed_idempotent_and_nodup.1 [3, 4] 4 (by decide)

/-- Claim C4: an id already in the checkpoint is skipped by
`process_single_sku`: it returns success, leaves the checkpoint as it
is, and issues no network call (no details GET, no image GET, no PUT). -/
theorem checkpointed_sku_no_network_calls :
    ∀ (remote : Remote) (cp : Checkpoint) (sku_id : Int), sku_id ∈ cp →
      process_single_sku remote cp sku_id = (true, cp, []) :=
  fun remote cp sku_id h => process_single_sku_of_mem remote cp sku_id h

/-- Witness for C4: item 100 checkpointed at start is never touched. -/
theorem checkpointed_sku_no_network_calls_witness :
    process_single_sku silentRemote [100] 100 = (true, [100], []) :=
  checkpointed_sku_no_network_calls silentRemote [100] 100 (by decide)

/-- Claim C5: a 404 on the image-list fetch is terminal exactly like an
empty image list (checkpointed, success), while any other non-200 status
or a missing response leaves the item unresolved: failure and an
unchanged checkpoint, so a later run retries it. -/
theorem image_fetch_404_terminal_other_errors_nonterminal :
    ∀ (remote : Remote) (sku_id : Int) (product_name : String)
      (cp : Checkpoint),
      (∀ body, remote.imagesResp sku_id = some (404, body) →
        process_sku_images remote sku_id product_name cp =
          (true, mark_processed cp sku_id, [NetCall.getImages sku_id])) ∧
      (remote.imagesResp sku_id = some (200, []) →
        process_sku_images remote sku_id product_name cp =
          (true, mark_processed cp sku_id, [NetCall.getImages sku_id])) ∧
      (∀ status body, remote.imagesResp sku_id = some (status, body) →
        status ≠ 200 → status ≠ 404 →
        process_sku_images remote sku_id product_name cp =
          (false, cp, [NetCall.getImages sku_id])) ∧
      (remote.imagesResp sku_id = none →
        process_sku_images remote sku_id product_name cp =
          (false, cp, [NetCall.getImages sku_id])) := by
  intro remote sku_id product_name cp
  refine ⟨?_, ?_, ?_, ?_⟩
  · intro body h
    simp [process_sku_images, h]
  · intro h
    simp [process_sku_images, h]
  · intro status body h h200 h404
    simp [process_sku_images, h, h200, h404]
  · intro h
    simp [process_sku_images, h]

/-- Witness for C5: a concrete 404 answer marks the item processed. -/
theorem image_fetch_404_witness :
    process_sku_images demo404Remote 9 "Abc" [] =
      (true, mark_processed [] 9, [NetCall.getImages 9]) :=
  (image_fetch_404_terminal_other_errors_nonterminal demo404Remote 9
    "Abc" []).1 [] rfl

/-- Claim C7: the PUT payload of `update_image_alt` is the original image
record with exactly the `Label` and `Text` fields set to the new alt
text; the value of every other key is unchanged. -/
theorem update_payload_frame (img : ImageRec) (t : String) (k : String) :
    dictGet (build_update_payload img t) "Label" = some (JVal.str t) ∧
    dictGet (build_update_payload img t) "Text" = some (JVal.str t) ∧
    (k ≠ "Label" → k ≠ "Text" →
      dictGet (build_update_payload img t) k = dictGet img k) :=
  ⟨dictGet_build_payload_label img t, dictGet_build_payload_text img t,
   fun h1 h2 => dictGet_build_payload_other img t k h1 h2⟩

/-- Witness for C7 at a concrete record and frame key. -/
theorem update_payload_frame_witness :
    dictGet (build_update_payload
      [("Id", JVal.num 7), ("Url", JVal.str "u")] "alt") "Url" =
      dictGet [("Id", JVal.num 7), ("Url", JVal.str "u")] "Url" :=
  (update_payload_frame [("Id", JVal.num 7), ("Url", JVal.str "u")]
    "alt" "Url").2.2 (by decide) (by decide)

/-- Claim C10: the generated alt text ignores the image position and the
image count, and consequently every PUT issued while processing an item
carries the same `Label` value — the alt text generated for the item's
product name. -/
theorem alt_text_position_independent :
    (∀ (product_name : String) (i1 t1 i2 t2 : Nat),
      generate_natural_alt_text product_name i1 t1 =
        generate_natural_alt_text product_name i2 t2) ∧
    (∀ (remote : Remote) (sku_id : Int) (product_name : String)
      (cp : Checkpoint) (fid : Option JVal) (payload : ImageRec),
      NetCall.putImage sku_id fid payload ∈
          (process_sku_images remote sku_id product_name cp).2.2 →
      dictGet payload "Label" =
        some (JVal.str (generate_natural_alt_text product_name 0 0))) := by
  constructor
  · intro product_name i1 t1 i2 t2
    rfl
  · intro remote sku_id product_name cp fid payload hmem
    cases hresp : remote.imagesResp sku_id with
    | none => simp [process_sku_images, hresp] at hmem
    | some p =>
      obtain ⟨st, images⟩ := p
      by_cases h200 : st = 200
      · subst h200
        by_cases hemp : images = []
        · simp [process_sku_images, hresp, hemp] at hmem
        · by_cases hall : allHaveAlt images
          · simp [process_sku_images, hresp, hemp, hall] at hmem
          · simp [process_sku_images, hresp, hemp, hall] at hmem
            obtain ⟨img, himg⟩ :=
              updateImagesLoop_calls_shape remote sku_id product_name
                images.length images 1 _ hmem
            injection himg with h1 h2 h3
            rw [h3]
            exact dictGet_build_payload_label img _
      · by_cases h404 : st = 404
        · subst h404
          simp [process_sku_images, hresp] at hmem
        · simp [process_sku_images, hresp, h200, h404] at hmem

/-- Witness for C10: the single PUT of a demo run carries the generated
alt text as its label. -/
theorem alt_text_position_independent_witness :
    dictGet [("Id", JVal.num 1), ("Label", JVal.str "abc"),
      ("Text", JVal.str "abc")] "Label" =
      some (JVal.str (generate_natural_alt_text "Abc" 0 0)) :=
  alt_text_position_independent.2 demoRemote 5 "Abc" []
    (some (JVal.num 1))
    [("Id", JVal.num 1), ("Label", JVal.str "abc"),
      ("Text", JVal.str "abc")] (by decide)

/-- Claim C6: for an item that reaches the per-image update phase (200
image list, nonempty, not all labeled, not yet checkpointed), the run
succeeds — and the item lands in the checkpoint — exactly when every
image whose label differs from the target got a 200 on its PUT; any
failed update (401 included) keeps the item out of the checkpoint. -/
theorem update_phase_checkpoint_iff_all_updates_ok :
    ∀ (remote : Remote) (sku_id : Int) (product_name : String)
      (cp : Checkpoint) (images : List ImageRec),
      remote.imagesResp sku_id = some (200, images) →
      images ≠ [] → allHaveAlt images = false → sku_id ∉ cp →
      (((process_sku_images remote sku_id product_name cp).1 = true ↔
          ∀ img ∈ images,
            labelStr img ≠ generate_natural_alt_text product_name 0 0 →
            remote.updateStatus sku_id (fileIdOf img) = some 200) ∧
        (sku_id ∈ (process_sku_images remote sku_id product_name cp).2.1 ↔
          ∀ img ∈ images,
            labelStr img ≠ generate_natural_alt_text product_name 0 0 →
            remote.updateStatus sku_id (fileIdOf img) = some 200)) := by
  intro remote sku_id product_name cp images hresp hne hall hmem
  have hunfold : process_sku_images remote sku_id product_name cp =
      ((updateImagesLoop remote sku_id product_name images.length 1
          images).1,
       if (updateImagesLoop remote sku_id product_name images.length 1
          images).1
         then mark_processed cp sku_id else cp,
       NetCall.getImages sku_id ::
         (updateImagesLoop remote sku_id product_name images.length 1
           images).2) := by
    simp [process_sku_images, hresp, hne, hall]
  have hiff := updateImagesLoop_success_iff remote sku_id product_name
    images.length images 1
  rw [hunfold]
  cases hs : (updateImagesLoop remote sku_id product_name images.length 1
      images).1 with
  | true =>
    have hP := hiff.mp hs
    constructor
    · simpa using hP
    · simpa [mark_processed, hmem] using hP
  | false =>
    have hP : ¬ ∀ img ∈ images,
        labelStr img ≠ generate_natural_alt_text product_name 0 0 →
        remote.updateStatus sku_id (fileIdOf img) = some 200 :=
      fun p => by simp [hiff.mpr p] at hs
    constructor
    · simp [hP]
    · simp [hs, hP, hmem]

/-- Witness for C6: with every PUT answered 200 the demo item ends up in
the checkpoint. -/
theorem update_phase_checkpoint_iff_witness :
    (5 : Int) ∈ (process_sku_images demoRemote 5 "Abc" []).2.1 :=
  (update_phase_checkpoint_iff_all_updates_ok demoRemote 5 "Abc" []
    [[("Id", JVal.num 1), ("Label", JVal.str "")]] rfl (by decide)
    (by decide) (by decide)).2.mpr (by decide)

/-- Claim C9: compaction keeps comment, blank and unparsable lines, keeps
exactly the ID lines whose id is outside the processed set, preserves the
original relative order (it is a `filter` of the original lines), and
rewrites the file only when at least one ID line is dropped. -/
theorem compaction_keeps_exactly_unprocessed :
    ∀ (processed : List Int) (lines : List String),
      remove_processed_skus_from_file processed lines =
        if lines.filter (keepLine processed) = lines then none
        else some (lines.filter (keepLine processed)) := by
  intro processed lines
  unfold remove_processed_skus_from_file
  rw [foldl_compactStep]
  by_cases h : lines.filter (keepLine processed) = lines
  · rw [if_pos h]
    have hzero : lines.countP (fun l => ! keepLine processed l) = 0 := by
      rw [List.countP_eq_zero]
      intro a ha
      have hka := List.filter_eq_self.mp h a ha
      simp [hka]
    simp [hzero]
  · rw [if_neg h]
    have hne : lines.countP (fun l => ! keepLine processed l) ≠ 0 := by
      intro h0
      apply h
      apply List.filter_eq_self.mpr
      intro a ha
      have := List.countP_eq_zero.mp h0 a ha
      simpa using this
    have hpos : 0 < lines.countP (fun l => ! keepLine processed l) :=
      Nat.pos_of_ne_zero hne
    simp [hpos]

/-- Claim C2: if after a first run every input item is either in the
checkpoint the run produced, or all its remotely visible images carry the
target alt text (the label the first run wrote or confirmed), then a
second run over the same input issues zero PUT calls: each item is
skipped via the checkpoint, hits the all-labeled fast path, or skips
every image by per-image equality. -/
theorem second_run_issues_no_puts :
    ∀ (remote1 remote2 : Remote) (cp0 : Checkpoint) (skus : List Int),
      (∀ sku ∈ skus,
        sku ∈ (runEngine remote1 cp0 skus).1 ∨
        ∀ img ∈ imagesBody remote2 sku,
          labelStr img =
            generate_natural_alt_text
              ((remote2.details sku).getD "") 0 0) →
      ((runEngine remote2 (runEngine remote1 cp0 skus).1 skus).2).filter
        NetCall.isPut = [] := by
  intro remote1 remote2 cp0 skus hgood
  have aux : ∀ (l : List Int) (cp : Checkpoint),
      (∀ sku ∈ l,
        sku ∈ (runEngine remote1 cp0 skus).1 ∨
        ∀ img ∈ imagesBody remote2 sku,
          labelStr img =
            generate_natural_alt_text
              ((remote2.details sku).getD "") 0 0) →
      (runEngine remote1 cp0 skus).1 ⊆ cp →
      ((runEngine remote2 cp l).2).filter NetCall.isPut = [] := by
    intro l
    induction l with
    | nil => intro cp _ _; rfl
    | cons sku rest ih =>
      intro cp hl hsub
      have hhead := hl sku (List.mem_cons_self sku rest)
      have htail := fun s hs => hl s (List.mem_cons_of_mem sku hs)
      have hsub2 : (runEngine remote1 cp0 skus).1 ⊆
          (process_single_sku remote2 cp sku).2.1 :=
        hsub.trans (subset_process_single_sku remote2 cp sku)
      have hrest := ih (process_single_sku remote2 cp sku).2.1 htail hsub2
      have hfst : ((process_single_sku remote2 cp sku).2.2).filter
          NetCall.isPut = [] := by
        rcases hhead with hmem | hgoodsku
        · rw [process_single_sku_of_mem remote2 cp sku (hsub hmem)]
          rfl
        · exact process_single_sku_no_puts remote2 cp sku hgoodsku
      simp only [runEngine, List.filter_append, hfst, hrest,
        List.nil_append]
  exact aux skus (runEngine remote1 cp0 skus).1 hgood
    (List.Subset.refl _)

/-- Witness for C2: a concrete run that wrote one label, then a second
run over the same input with no remote change, issuing no PUT. -/
theorem second_run_issues_no_puts_witness :
    ((runEngine demoRemote (runEngine demoRemote [] [5]).1 [5]).2).filter
      NetCall.isPut = [] :=
  second_run_issues_no_puts demoRemote demoRemote [] [5] (by decide)

/-- Claim C8: normalization is a deterministic function of the input's
lowercased whitespace tokens, so two inputs differing only in letter case
and whitespace (same tokens up to case) normalize identically; in
particular the spec's example pair agrees, both yielding
`"paracetamol 500mg"`. -/
theorem normalize_case_whitespace_insensitive :
    (∀ s t : String,
      (pySplitL s.data).map pyLower = (pySplitL t.data).map pyLower →
      normalize_product_name s = normalize_product_name t) ∧
    normalize_product_name "  Paracetamol   500MG " =
      normalize_product_name "paracetamol 500mg" ∧
    normalize_product_name "  Paracetamol   500MG " =
      "paracetamol 500mg" := by
  refine ⟨?_, ?_, ?_⟩
  · intro s t h
    rw [normalize_eq_core, normalize_eq_core, h]
  · decide
  · decide

/-- Witness for C8 at another case/whitespace variant pair. -/
theorem normalize_case_whitespace_insensitive_witness :
    normalize_product_name "ABC  def" = normalize_product_name " abc DEF " :=
  normalize_case_whitespace_insensitive.1 "ABC  def" " abc DEF "
    (by decide)

end AltText
